/-
Verification of the date-resolution subsystem of generate-manifest.js
(LD debate-rankings manifest generator).

The JavaScript source is shallowly embedded: strings become `List Char`
(wrapped in `String` at the API surface), JS regular-expression primitives
become explicit scanning functions with the same match semantics, the
insertion-ordered JS `Map` becomes an association list, and the one
statement that can throw (`lines[0].toLowerCase()` on an empty filtered
line array) is modelled with `Except`.  JS `Date` objects are represented
by the `(year, month, day)` triple passed to `new Date`, together with a
day-granularity timestamp (`jsDateTime`) that is order-isomorphic to
`Date.prototype.getTime` for the comparisons the sorter performs.
-/
import Mathlib

/-! ### Character and string primitives (JS semantics) -/

/-- JS `String.prototype.toLowerCase` restricted to ASCII, which is the only
range the source exercises (month names, header keywords, folder names). -/
def lowerL (s : List Char) : List Char := s.map Char.toLower

/-- Whitespace as used by JS `trim` / `\s` on the ASCII inputs in scope. -/
def isSpaceC (c : Char) : Bool := c.isWhitespace

/-- JS `String.prototype.trim`. -/
def trimL (s : List Char) : List Char :=
  ((s.dropWhile isSpaceC).reverse.dropWhile isSpaceC).reverse

/-- Does `hay` start with `needle`? (helper for substring search). -/
def startsWith : List Char → List Char → Bool
  | _, [] => true
  | [], _ :: _ => false
  | a :: as, b :: bs => a = b && startsWith as bs

/-- JS `String.prototype.includes`. -/
def listContains : List Char → List Char → Bool
  | [], sub => sub.isEmpty
  | c :: t, sub => startsWith (c :: t) sub || listContains t sub

/-- JS `String.prototype.indexOf`, as an `Option` (the source only uses the
index after an `includes` check has succeeded). -/
def idxOfSub : List Char → List Char → Option Nat
  | [], sub => if sub.isEmpty then some 0 else none
  | c :: t, sub =>
    if startsWith (c :: t) sub then some 0
    else (idxOfSub t sub).map (· + 1)

/-- JS `String.prototype.includes` on `String`. -/
def strContains (hay sub : String) : Bool := listContains hay.data sub.data

/-- Numeric value of a digit list, as produced by JS `parseInt` on an
all-digit capture. -/
def digitsToNat (l : List Char) : Nat :=
  l.foldl (fun a c => 10 * a + (c.toNat - 48)) 0

/-! ### The parenthetical-stripping regex `/\s*\(.*?\)\s*/g`  -/

/-- Scan for the first `)` (the lazy `.*?` of the regex cannot cross a
newline); returns the remainder after the `)`. -/
def findCloseParen : List Char → Option (List Char)
  | [] => none
  | ')' :: t => some t
  | '\n' :: _ => none
  | _ :: t => findCloseParen t

/-- Anchored attempt of `\s*\(.*?\)\s*` at the head of `s`: optional
whitespace, an opening parenthesis, the shortest run to a closing
parenthesis, then trailing whitespace.  Returns the remainder after the
match. -/
def parenMatchAt (s : List Char) : Option (List Char) :=
  let ws := s.takeWhile isSpaceC
  match s.drop ws.length with
  | '(' :: r =>
    match findCloseParen r with
    | some afterClose => some (afterClose.dropWhile isSpaceC)
    | none => none
  | _ => none

/-- One pass of the global replace: leftmost-match scanning, each match
replaced by the empty string, scanning resuming after the match. -/
def stripParensAux : Nat → List Char → List Char
  | 0, s => s
  | _ + 1, [] => []
  | fuel + 1, c :: t =>
    match parenMatchAt (c :: t) with
    | some rest => stripParensAux fuel rest
    | none => c :: stripParensAux fuel t

/-- JS `dateStr.replace(/\s*\(.*?\)\s*/g, '')`. Every step of the scan
consumes at least one character, so `s.length` fuel always suffices. -/
def stripParens (s : List Char) : List Char := stripParensAux s.length s

/-! ### The year regex `/\b(202\d)\b/` -/

/-- JS `\w` word character: `[A-Za-z0-9_]`. -/
def isWordChar (c : Char) : Bool := c.isAlpha || c.isDigit || c = '_'

/-- Scan for the leftmost match of `\b(202\d)\b`; `prevW` records whether the
character before the current position is a word character (for the leading
`\b`). Returns the numeric value of the four captured digits. -/
def findYearAux : Bool → List Char → Option Nat
  | _, [] => none
  | prevW, c :: t =>
    match c :: t with
    | '2' :: '0' :: '2' :: d :: rest =>
      if !prevW && d.isDigit &&
          (match rest with | [] => true | e :: _ => !isWordChar e) then
        some (2020 + (d.toNat - 48))
      else findYearAux (isWordChar c) t
    | _ => findYearAux (isWordChar c) t

/-- JS `dateStr.match(/\b(202\d)\b/)`, returning the year value. -/
def findYear (s : List Char) : Option Nat := findYearAux false s

/-! ### Month vocabulary and month search -/

/-- The `MONTHS` dictionary of the source: the twelve full month names and
the historical misspelling `spetember`, in the object's insertion order
(which is the order `Object.entries` iterates). -/
def MONTHS : List (String × Nat) :=
  [("january", 0), ("february", 1), ("march", 2), ("april", 3),
   ("may", 4), ("june", 5), ("july", 6), ("august", 7),
   ("september", 8), ("october", 9), ("november", 10), ("december", 11),
   ("spetember", 8)]

/-- The month-search loop of `parseStartDate`: iterate `MONTHS` in insertion
order and stop at the first name contained in the lowercased string; the
returned index is `dateStr.toLowerCase().indexOf(monthName)`, which the
source computes right after the loop. -/
def findMonth (s : List Char) : Option (String × Nat × Nat) :=
  MONTHS.findSome? fun p =>
    match idxOfSub (lowerL s) p.1.data with
    | some i => some (p.1, p.2, i)
    | none => none

/-! ### The day regex `/\s*(\d{1,2})/`  -/

/-- Value captured by `\d{1,2}`: at most the first two digits of the digit
run (the regex has no word-boundary assertion, so a longer run is
truncated). -/
def twoDigitVal (l : List Char) : Nat :=
  digitsToNat ((l.takeWhile Char.isDigit).take 2)

/-- Anchored attempt of `\s*(\d{1,2})` at the head of `s`: greedy optional
whitespace, then one or two digits. -/
def matchDayAt (s : List Char) : Option Nat :=
  match s.dropWhile isSpaceC with
  | c :: r => if c.isDigit then some (twoDigitVal (c :: r)) else none
  | [] => none

/-- JS `afterMonth.match(/\s*(\d{1,2})/)`: leftmost-match scanning of the
anchored attempt. -/
def dayScan : List Char → Option Nat
  | [] => none
  | c :: t =>
    match matchDayAt (c :: t) with
    | some v => some v
    | none => dayScan t

/-! ### parseStartDate -/

/-- The guard `!dateStr || dateStr.trim() === '' || dateStr.toLowerCase() === 'nan'`. -/
def nanGuard (s : String) : Bool :=
  s.data.isEmpty || (trimL s.data).isEmpty || lowerL s.data == "nan".data

/-- The string `parseStartDate` actually scans: the input trimmed, the
parenthetical regex applied, and the result trimmed again. -/
def cleanDate (s : String) : List Char :=
  trimL (stripParens (trimL s.data))

/-- `parseStartDate` of the source.  The result is the `(year, monthNum,
day)` triple handed to `new Date(year, monthNum, day)` (the constructor
never throws, so the source's `try`/`catch` is dead).  `none` is the JS
`null`. -/
def parseStartDate (s : String) : Option (Nat × Nat × Nat) :=
  if nanGuard s then none
  else
    match findMonth (cleanDate s) with
    | none => none
    | some (name, num, idx) =>
      match dayScan ((cleanDate s).drop (idx + name.data.length)) with
      | none => none
      | some day => some ((findYear (cleanDate s)).getD 2025, num, day)


/-! ### normalizeTournamentName -/

/-- A character kept by the regex class `[a-z0-9]` (the source removes every
character outside it, after lowercasing). -/
def isLowerAlnum (c : Char) : Bool :=
  (97 ≤ c.toNat && c.toNat ≤ 122) || (48 ≤ c.toNat && c.toNat ≤ 57)

/-- `normalizeTournamentName` of the source: lowercase, strip every
non-`[a-z0-9]` character, trim (the trim is the source's final `.trim()`,
vacuous after the strip). -/
def normalizeTournamentName (name : String) : String :=
  ⟨trimL ((lowerL name.data).filter isLowerAlnum)⟩


/-! ### JS Date timestamps (for the sorter) -/

/-- Days from the civil epoch 1970-01-01 for the first day of month `m`
(1..12) of year `y` (valid for the years ≥ 2020 in scope); the standard
days-from-civil computation. -/
def daysFromCivilFirst (y m : Nat) : Int :=
  let yy : Nat := if m ≤ 2 then y - 1 else y
  let era : Nat := yy / 400
  let yoe : Nat := yy % 400
  let mp : Nat := (m + 9) % 12
  let doy : Nat := (153 * mp + 2) / 5
  let doe : Nat := yoe * 365 + yoe / 4 - yoe / 100 + doy
  (era : Int) * 146097 + (doe : Int) - 719468

/-- Day-granularity timestamp of `new Date(y, m, d)` (JS month `m` is
0-based and overflows into the year; day `d` overflows linearly).  This is
order-isomorphic to `Date.prototype.getTime`, which is all the sorter's
comparator observes. -/
def jsDateTime (y m d : Nat) : Int :=
  daysFromCivilFirst (y + m / 12) (m % 12 + 1) + (d : Int) - 1


/-! ### The date lookup table (JS Map in insertion order) -/

/-- The object stored per row by `loadTournamentDates`:
`{ originalName, date, dateStr }`, with the `Date` represented by the
`(year, month, day)` constructor triple. -/
structure DateRecord where
  originalName : String
  date : Nat × Nat × Nat
  dateStr : String
deriving DecidableEq, Repr

/-- The JS `Map` of normalized name → record, kept in insertion order. -/
abbrev DateTable := List (String × DateRecord)

/-- `Map.prototype.get`/`has` (association-list lookup). -/
def mapGet (m : DateTable) (k : String) : Option DateRecord :=
  (m.find? fun p => p.1 == k).map fun p => p.2

/-- `Map.prototype.set`: overwrite the value in place when the key exists
(keeping its position), otherwise append. -/
def mapSet (m : DateTable) (k : String) (v : DateRecord) : DateTable :=
  if m.any fun p => p.1 == k then
    m.map fun p => if p.1 == k then (k, v) else p
  else m ++ [(k, v)]

/-! ### loadTournamentDates -/

/-- JS `content.split(/\r?\n/)`: `\r\n` or `\n` separates lines; a lone
`\r` stays in the text. -/
def splitLinesL : List Char → List (List Char)
  | [] => [[]]
  | '\r' :: '\n' :: t => [] :: splitLinesL t
  | '\n' :: t => [] :: splitLinesL t
  | c :: t =>
    match splitLinesL t with
    | h :: r => (c :: h) :: r
    | [] => [[c]]

/-- JS `line.split('\t')`. -/
def splitOnChar (sep : Char) : List Char → List (List Char)
  | [] => [[]]
  | c :: t =>
    if c = sep then [] :: splitOnChar sep t
    else
      match splitOnChar sep t with
      | h :: r => (c :: h) :: r
      | [] => [[c]]

/-- The character-by-character comma parser of the source: a double quote
toggles the in-quote state (and is dropped), a comma outside quotes ends the
column, every column is pushed through `.trim()`. -/
def csvSplitAux : List Char → List Char → Bool → List (List Char)
  | [], current, _ => [trimL current.reverse]
  | '"' :: t, current, inQuote => csvSplitAux t current (!inQuote)
  | ',' :: t, current, false => trimL current.reverse :: csvSplitAux t [] false
  | c :: t, current, inQuote => csvSplitAux t (c :: current) inQuote

/-- The comma branch of the loader's per-line column split. -/
def csvSplit (line : List Char) : List (List Char) := csvSplitAux line [] false

/-- The per-line column split of the source: a line containing a tab is
split on tabs, any other line goes through the quoted-comma parser. -/
def lineColumns (line : List Char) : List (List Char) :=
  if line.contains '\t' then splitOnChar '\t' line else csvSplit line

/-- The per-row body of the loader's `for` loop, applied to the split
columns: rows with fewer than two columns, empty or `nan` names, or empty
or `nan` date strings are skipped; rows whose date fails to parse are
skipped; otherwise a record is inserted under the normalized name. -/
def processColumns (dateMap : DateTable) (columns : List (List Char)) : DateTable :=
  match columns with
  | c0 :: c1 :: _ =>
    let dateStr := trimL c0
    let tournamentName := trimL c1
    if tournamentName.isEmpty || lowerL tournamentName == "nan".data then dateMap
    else if dateStr.isEmpty || lowerL dateStr == "nan".data then dateMap
    else
      match parseStartDate ⟨dateStr⟩ with
      | some d =>
        mapSet dateMap (normalizeTournamentName ⟨tournamentName⟩)
          ⟨⟨tournamentName⟩, d, ⟨dateStr⟩⟩
      | none => dateMap
  | _ => dateMap

/-- One loop iteration of the loader: split the line (per-line delimiter
choice), then process the columns. -/
def loadRow (dateMap : DateTable) (line : List Char) : DateTable :=
  processColumns dateMap (lineColumns line)

instance instDecEqExcept {ε α : Type} [DecidableEq ε] [DecidableEq α] :
    DecidableEq (Except ε α) := fun x y =>
  match x, y with
  | .error a, .error b =>
    if h : a = b then .isTrue (congrArg Except.error h)
    else .isFalse fun hc => h (Except.error.inj hc)
  | .error _, .ok _ => .isFalse Except.noConfusion
  | .ok _, .error _ => .isFalse Except.noConfusion
  | .ok a, .ok b =>
    if h : a = b then .isTrue (congrArg Except.ok h)
    else .isFalse fun hc => h (Except.ok.inj hc)

/-- `loadTournamentDates` of the source.  `none` models a missing file
(`fs.existsSync` false): the source logs and returns the empty map.  For
present content the source filters blank lines and then unconditionally
evaluates `lines[0].toLowerCase()`; when every line is blank the filtered
array is empty and that access throws a `TypeError`, modelled as
`Except.error ()`. -/
def loadTournamentDates (src : Option String) : Except Unit DateTable :=
  match src with
  | none => .ok []
  | some content =>
    let lines := (splitLinesL content.data).filter fun l => !(trimL l).isEmpty
    match lines with
    | [] => .error ()
    | first :: _ =>
      let firstLine := lowerL first
      let startIndex : Nat :=
        if listContains firstLine "date".data && listContains firstLine "name".data
        then 1 else 0
      .ok ((lines.drop startIndex).foldl loadRow [])


/-! ### findTournamentDate -/

/-- The suffix list of the source's tier-3 matching. -/
def suffixesList : List String := ["invitational", "tournament", "classic", "memorial"]

/-- JS `String.prototype.replace` with a *string* pattern: replace the first
occurrence only. -/
def replaceFirstStr (s sub : String) : String :=
  match idxOfSub s.data sub.data with
  | none => s
  | some i => ⟨s.data.take i ++ s.data.drop (i + sub.data.length)⟩

/-- Tier 1 of `findTournamentDate`: exact lookup of the normalized name. -/
def exactTier (dateMap : DateTable) (normalized : String) : Option DateRecord :=
  mapGet dateMap normalized

/-- Tier 2: first entry (in insertion order) whose key contains, or is
contained in, the normalized folder name. -/
def substrTier (dateMap : DateTable) (normalized : String) : Option DateRecord :=
  dateMap.findSome? fun p =>
    if strContains normalized p.1 || strContains p.1 normalized then some p.2
    else none

/-- Tier 3: for each suffix in order, first the exact lookup of the
suffix-stripped folder name, then the containment scan over suffix-stripped
keys. -/
def suffixTier (dateMap : DateTable) (normalized : String) : Option DateRecord :=
  suffixesList.findSome? fun suffix =>
    match mapGet dateMap (replaceFirstStr normalized suffix) with
    | some v => some v
    | none =>
      dateMap.findSome? fun p =>
        if replaceFirstStr normalized suffix == replaceFirstStr p.1 suffix ||
            strContains (replaceFirstStr normalized suffix) (replaceFirstStr p.1 suffix) ||
            strContains (replaceFirstStr p.1 suffix) (replaceFirstStr normalized suffix)
        then some p.2
        else none

/-- `findTournamentDate` of the source: the three tiers in order, first
match wins, `null` when all fail. -/
def findTournamentDate (folderName : String) (dateMap : DateTable) : Option DateRecord :=
  match exactTier dateMap (normalizeTournamentName folderName) with
  | some v => some v
  | none =>
    match substrTier dateMap (normalizeTournamentName folderName) with
    | some v => some v
    | none => suffixTier dateMap (normalizeTournamentName folderName)

/-! ### The chronological sorter -/

/-- A tournament/date binding as sorted by the source: the tournament
object is collapsed to its `name` (the only field the comparator reads) and
the resolved `Date` to its timestamp (the only observation `getTime`
provides). -/
structure Binding where
  name : String
  date : Option Int
deriving DecidableEq, Repr

/-- Codepoint-wise three-way string comparison: the embedding of
`String.prototype.localeCompare` (case-sensitive; on the ASCII names in
scope the default collation and codepoint order agree). -/
def localeCmp : List Char → List Char → Int
  | [], [] => 0
  | [], _ :: _ => -1
  | _ :: _, [] => 1
  | a :: as, b :: bs =>
    if a.toNat < b.toNat then -1
    else if b.toNat < a.toNat then 1
    else localeCmp as bs

/-- The comparator passed to `tournamentsWithDates.sort`. -/
def tournamentCmp (a b : Binding) : Int :=
  match a.date, b.date with
  | some da, some db => da - db
  | some _, none => -1
  | none, some _ => 1
  | none, none => localeCmp a.name.data b.name.data

/-- The ordering induced by the comparator. -/
def bindLe (a b : Binding) : Prop := tournamentCmp a b ≤ 0

instance : DecidableRel bindLe := fun a b =>
  inferInstanceAs (Decidable (tournamentCmp a b ≤ 0))

/-- JS `Array.prototype.sort` with a consistent comparator produces the
unique stable order; `insertionSort` over `bindLe` is that stable sort. -/
def sortBindings (l : List Binding) : List Binding := List.insertionSort bindLe l

/-- The order the specification ascribes to the sorted output: dates
ascending when both are present, dated before undated, undated pairs in
ascending (embedded-locale) name order. -/
def sortSpecRel (a b : Binding) : Prop :=
  match a.date, b.date with
  | some da, some db => da ≤ db
  | some _, none => True
  | none, some _ => False
  | none, none => localeCmp a.name.data b.name.data ≤ 0

instance : ∀ a b, Decidable (sortSpecRel a b) := fun a b => by
  unfold sortSpecRel
  rcases a.date with _ | da <;> rcases b.date with _ | db <;>
    first
      | exact inferInstanceAs (Decidable (_ ≤ (0 : Int)))
      | exact inferInstanceAs (Decidable True)
      | exact inferInstanceAs (Decidable False)
      | exact inferInstanceAs (Decidable (_ ≤ _))

/-! ### Claim-side models (used only to state refutations) -/

/-- Modelled from the spec (claim C7): a loader whose delimiter is detected
once, from the *first* line — "if any tab character is present in the first
line every line is split on tabs, otherwise every line is parsed as
comma-separated".  Everything else follows `loadTournamentDates`.  This is
the claim's wording, written down so the actual loader can be compared with
it. -/
def specFirstLineLoad (src : Option String) : Except Unit DateTable :=
  match src with
  | none => .ok []
  | some content =>
    let lines := (splitLinesL content.data).filter fun l => !(trimL l).isEmpty
    match lines with
    | [] => .error ()
    | first :: _ =>
      let firstLine := lowerL first
      let startIndex : Nat :=
        if listContains firstLine "date".data && listContains firstLine "name".data
        then 1 else 0
      let useTab := first.contains '\t'
      .ok ((lines.drop startIndex).foldl
        (fun dm line =>
          processColumns dm (if useTab then splitOnChar '\t' line else csvSplit line))
        [])

/-! ### Concrete data used by witnesses and counterexamples -/

/-- Mixed-delimiter table content: the first line is tab-delimited, the
second comma-delimited. -/
def mixedContent : String := "August 22-23, 2025\tAlpha\nSeptember 5 2025,Beta"

/-- `mixedContent` with a third, quoted-comma line. -/
def mixedContent3 : String :=
  "August 22-23, 2025\tAlpha\nSeptember 5 2025,Beta\n\"September 6, 2025\",Gamma"

def alphaRec : DateRecord := ⟨"Alpha", (2025, 7, 22), "August 22-23, 2025"⟩
def betaRec : DateRecord := ⟨"Beta", (2025, 8, 5), "September 5 2025"⟩
def gammaRec : DateRecord := ⟨"Gamma", (2025, 8, 6), "September 6, 2025"⟩

def rBlue : DateRecord := ⟨"Blue", (2025, 7, 22), "August 22-23, 2025"⟩
def rBlueKey : DateRecord := ⟨"Blue Key", (2025, 8, 5), "September 5-6, 2025"⟩
def rAlphaInv : DateRecord := ⟨"Alpha Invitational", (2025, 9, 31), "October 31, 2025"⟩

/-- Resolver demo table: the `"blue"` entry precedes the `"bluekey"` entry,
so the substring tier would return `rBlue` while the exact tier returns
`rBlueKey`. -/
def demoTable : DateTable := [("blue", rBlue), ("bluekey", rBlueKey)]

/-- Resolver demo table on which the exact and substring tiers fail for
`"alphaclassic"` but the suffix-stripped tier matches. -/
def demoTable2 : DateTable := [("alphainvitational", rAlphaInv)]

def rZzz : DateRecord := ⟨"Zzz", (2025, 7, 22), "August 22-23, 2025"⟩
def rInvTour : DateRecord := ⟨"InvitationalTour", (2025, 8, 5), "September 5-6, 2025"⟩

/-- Table for the C10 counterexample: the first record is `rZzz`, but for
the folder name `"Tournament"` the suffix tier already matches `rInvTour`
while iterating the *first* suffix (`"invitational"`), because stripping
`"invitational"` from the key `"invitationaltour"` leaves `"tour"`, which
`"tournament"` contains. -/
def cexTable : DateTable := [("zzz", rZzz), ("invitationaltour", rInvTour)]

def wAlpha : DateRecord := ⟨"Alpha", (2025, 7, 22), "August 22-23, 2025"⟩
def wBeta : DateRecord := ⟨"Beta", (2025, 8, 5), "September 5-6, 2025"⟩

/-- Table for the C10 witness. -/
def wTable : DateTable := [("alpha", wAlpha), ("beta", wBeta)]

/-! ### Sanity checks on the testable properties of the specification -/

example : parseStartDate "August 22-23, 2025" = some (2025, 7, 22) := by decide
example : parseStartDate "October 31-November 2, 2025" = some (2025, 9, 31) := by decide
example : parseStartDate "January 17-19, 2026 (tentative)" = some (2026, 0, 17) := by decide
example : parseStartDate "" = none := by decide
example : parseStartDate "nan" = none := by decide
example : parseStartDate "NaN" = none := by decide
example : parseStartDate "March 7-9" = some (2025, 2, 7) := by decide
example : normalizeTournamentName "Blue Key" = "bluekey" := by decide
example : normalizeTournamentName "BlueKey" = "bluekey" := by decide
example : normalizeTournamentName "blue-key!!" = "bluekey" := by decide
example : jsDateTime 2025 7 1 < jsDateTime 2025 8 1 := by decide
example : jsDateTime 1970 0 1 = 0 := by decide
example :
    loadTournamentDates (some "Date,Name\n\"August 22-23, 2025\",Blue Key") =
      .ok [("bluekey", ⟨"Blue Key", (2025, 7, 22), "August 22-23, 2025"⟩)] := by
  decide

/-! ### Helper lemmas -/

theorem isSpaceC_not_digit (c : Char) (h : isSpaceC c = true) : c.isDigit = false := by
  have h2 : ((c = ' ' ∨ c = '\t') ∨ c = '\r') ∨ c = '\n' := by
    simpa [isSpaceC, Char.isWhitespace, Bool.or_eq_true, decide_eq_true_eq] using h
  rcases h2 with ((h | h) | h) | h <;> (subst h; decide)

theorem digit_not_isSpaceC (c : Char) (h : c.isDigit = true) : isSpaceC c = false := by
  cases hs : isSpaceC c
  · rfl
  · rw [isSpaceC_not_digit c hs] at h; exact absurd h (by simp)

/-- The scanning day regex finds exactly the earliest digit of the string,
and captures (at most two of) the digits starting there: leftmost-match
semantics of `/\s*(\d{1,2})/`. -/
theorem dayScan_eq_findIdx (l : List Char) :
    dayScan l = (l.findIdx? Char.isDigit).map fun i => twoDigitVal (l.drop i) := by
  induction l with
  | nil => rfl
  | cons c t ih =>
    by_cases hd : c.isDigit
    · have hw : isSpaceC c = false := digit_not_isSpaceC c hd
      simp [dayScan, matchDayAt, List.dropWhile, hw, hd, List.findIdx?_cons]
    · have hmc : matchDayAt (c :: t) = matchDayAt t ∨ matchDayAt (c :: t) = none := by
        by_cases hw : isSpaceC c
        · left; simp [matchDayAt, List.dropWhile, hw]
        · right; simp [matchDayAt, List.dropWhile, hw, hd]
      have hshift :
          ((c :: t).findIdx? Char.isDigit).map (fun i => twoDigitVal ((c :: t).drop i)) =
            (t.findIdx? Char.isDigit).map fun i => twoDigitVal (t.drop i) := by
        rw [List.findIdx?_cons]
        simp [hd, Option.map_map]
        rfl
      rw [hshift, ← ih]
      rcases hmc with hmc | hmc
      · show (match matchDayAt (c :: t) with
          | some v => some v | none => dayScan t) = dayScan t
        rw [hmc]
        cases hmt : matchDayAt t with
        | none => rfl
        | some v =>
          cases t with
          | nil => simp [matchDayAt] at hmt
          | cons x xs => simp [dayScan, hmt]
      · show (match matchDayAt (c :: t) with
          | some v => some v | none => dayScan t) = dayScan t
        rw [hmc]

theorem listContains_nil (l : List Char) : listContains l [] = true := by
  cases l <;> simp [listContains, startsWith, List.isEmpty]

theorem strContains_empty (s : String) : strContains s "" = true := by
  unfold strContains
  exact listContains_nil s.data

/-- The comparator embedding of `localeCompare` is antisymmetric under
argument swap. -/
theorem localeCmp_swap (a : List Char) : ∀ b, localeCmp b a = -localeCmp a b := by
  induction a with
  | nil => intro b; cases b <;> simp [localeCmp]
  | cons x xs ih =>
    intro b
    cases b with
    | nil => simp [localeCmp]
    | cons y ys =>
      simp only [localeCmp]
      by_cases h1 : x.toNat < y.toNat
      · have h2 : ¬y.toNat < x.toNat := by omega
        simp [h1, h2]
      · by_cases h2 : y.toNat < x.toNat
        · simp [h1, h2]
        · simp [h1, h2, ih ys]

/-- Transitivity of the comparator embedding of `localeCompare`. -/
theorem localeCmp_trans (a : List Char) :
    ∀ b c, localeCmp a b ≤ 0 → localeCmp b c ≤ 0 → localeCmp a c ≤ 0 := by
  induction a with
  | nil => intro b c _ _; cases c <;> simp [localeCmp]
  | cons x xs ih =>
    intro b c h1 h2
    cases b with
    | nil => simp [localeCmp] at h1
    | cons y ys =>
      cases c with
      | nil => simp [localeCmp] at h2
      | cons z zs =>
        simp only [localeCmp] at h1 h2 ⊢
        by_cases hxy : x.toNat < y.toNat
        · by_cases hyz : y.toNat < z.toNat
          · simp [show x.toNat < z.toNat by omega]
          · by_cases hzy : z.toNat < y.toNat
            · simp [hyz, hzy] at h2
            · simp [show x.toNat < z.toNat by omega]
        · by_cases hyx : y.toNat < x.toNat
          · simp [hxy, hyx] at h1
          · by_cases hyz : y.toNat < z.toNat
            · simp [show x.toNat < z.toNat by omega]
            · by_cases hzy : z.toNat < y.toNat
              · simp [hyz, hzy] at h2
              · have hxz : ¬x.toNat < z.toNat := by omega
                have hzx : ¬z.toNat < x.toNat := by omega
                simp [hxy, hyx] at h1
                simp [hyz, hzy] at h2
                simp [hxz, hzx]
                exact ih ys zs h1 h2

instance : IsTotal Binding bindLe := by
  constructor
  intro a b
  obtain ⟨na, da⟩ := a
  obtain ⟨nb, db⟩ := b
  rcases da with _ | ta <;> rcases db with _ | tb <;>
    simp only [bindLe, tournamentCmp] <;> try omega
  rw [localeCmp_swap]
  omega

instance : IsTrans Binding bindLe := by
  constructor
  intro a b c h1 h2
  obtain ⟨na, da⟩ := a
  obtain ⟨nb, db⟩ := b
  obtain ⟨nc, dc⟩ := c
  rcases da with _ | ta <;> rcases db with _ | tb <;> rcases dc with _ | tc <;>
    simp only [bindLe, tournamentCmp] at h1 h2 ⊢ <;> try omega
  exact localeCmp_trans _ _ _ h1 h2

/-- The comparator order implies the specification order (the case "undated
before dated" cannot occur in a comparator-sorted pair). -/
theorem bindLe_imp_spec {a b : Binding} (h : bindLe a b) : sortSpecRel a b := by
  obtain ⟨na, da⟩ := a
  obtain ⟨nb, db⟩ := b
  rcases da with _ | ta <;> rcases db with _ | tb <;>
    simp only [bindLe, tournamentCmp, sortSpecRel] at h ⊢ <;> omega

/-- If the substring tier found nothing, the table has no empty-string key
(an empty key is a substring of every folder name, so the substring tier
would have caught it). -/
theorem substrTier_none_no_empty_key {m : DateTable} {n : String}
    (h : substrTier m n = none) : mapGet m "" = none := by
  cases hm : mapGet m "" with
  | none => rfl
  | some v =>
    exfalso
    unfold mapGet at hm
    cases hf : m.find? fun p => p.1 == "" with
    | none => rw [hf] at hm; simp at hm
    | some p =>
      have hp1 : p.1 = "" := by
        have := List.find?_some hf
        simpa using this
      have hpm : p ∈ m := List.mem_of_find?_eq_some hf
      unfold substrTier at h
      have hall := List.findSome?_eq_none_iff.mp h p hpm
      rw [hp1] at hall
      rw [strContains_empty] at hall
      simp at hall

/-! ### Claim C1 -/

/-- Claim C1 (code bug exhibited): `parseStartDate` is specified (by the
spec and by its own doc comment, "the START date") to select the
earliest-occurring month token, so `"January 30-February 1, 2026"` must
give January 30 and `"December 30-January 1, 2026"` must give December 30.
The code instead iterates the `MONTHS` dictionary in insertion order, so
the January example happens to be right, but the December example returns
`new Date(2026, 0, 1)` — January 1, the *end* date — because `'january'`
is tested before `'december'`. -/
theorem c1_month_selection_eval :
    parseStartDate "January 30-February 1, 2026" = some (2026, 0, 30) ∧
    parseStartDate "December 30-January 1, 2026" = some (2026, 0, 1) := by
  decide

/-! ### Claim C2 -/

/-- Claim C2 (counterexample): the claim says a missing year is inferred
from the month index relative to a caller-supplied season pair (month ≥ 7
gives the earlier year, month < 7 the later year).  The code hardcodes
2025: `"September 7-9"` (month 8 ≥ 7) and `"March 7-9"` (month 2 < 7) both
come back with year 2025, and no consecutive season pair satisfies
"earlier = 2025 and later = 2025". -/
theorem c2_year_not_inferred_counterexample :
    parseStartDate "September 7-9" = some (2025, 8, 7) ∧
    parseStartDate "March 7-9" = some (2025, 2, 7) ∧
    ¬∃ yEarlier : Nat, 2025 = yEarlier ∧ 2025 = yEarlier + 1 :=
  ⟨by decide, by decide, by omega⟩

/-- Claim C2 (amended): whenever `parseStartDate` succeeds on an input in
which the year regex `\b(202\d)\b` found nothing, the resulting year is the
hardcoded literal 2025, independent of the month index; no season
configuration exists. -/
theorem c2_year_defaults_to_2025 (s : String) (y m d : Nat)
    (hp : parseStartDate s = some (y, m, d))
    (hy : findYear (cleanDate s) = none) : y = 2025 := by
  unfold parseStartDate at hp
  rw [hy] at hp
  cases hg : nanGuard s with
  | true => rw [hg] at hp; simp at hp
  | false =>
    rw [hg] at hp
    simp only [Bool.false_eq_true, if_false] at hp
    cases hfm : findMonth (cleanDate s) with
    | none => rw [hfm] at hp; simp at hp
    | some p =>
      obtain ⟨name, num, idx⟩ := p
      rw [hfm] at hp
      dsimp only at hp
      cases hds : dayScan ((cleanDate s).drop (idx + name.data.length)) with
      | none => rw [hds] at hp; simp at hp
      | some day =>
        rw [hds] at hp
        simp [Option.getD] at hp
        omega

/-- Witness for the amended C2 at the spec's own example `"March 7-9"`. -/
theorem c2_year_defaults_to_2025_witness :
    parseStartDate "March 7-9" = some (2025, 2, 7) ∧
    findYear (cleanDate "March 7-9") = none ∧
    2025 = 2025 :=
  ⟨by decide, by decide,
    c2_year_defaults_to_2025 "March 7-9" 2025 2 7 (by decide) (by decide)⟩

/-! ### Claim C5 -/

/-- Claim C5 (code bug exhibited): a missing source file does give the
empty table, but empty or whitespace-only content does not "complete and
return a table": after blank lines are filtered out, the source evaluates
`lines[0].toLowerCase()` on an empty array and throws a `TypeError`,
aborting the run. -/
theorem c5_empty_content_throws :
    loadTournamentDates none = .ok [] ∧
    loadTournamentDates (some "") = .error () ∧
    loadTournamentDates (some "   \n  \n") = .error () := by
  decide

/-! ### Claim C8 -/

/-- Claim C8 (counterexample): the month vocabulary contains no
abbreviations, so `"Aug 22-23, 2025"` — which the claim says has its month
extracted — parses to `null` (no `MONTHS` key is a substring of it). -/
theorem c8_no_abbreviations_counterexample :
    parseStartDate "Aug 22-23, 2025" = none := by
  decide

/-- Claim C8 (amended): the vocabulary is exactly the twelve full month
names plus the historical misspelling `"spetember"` mapped to September
(8), matched case-insensitively; abbreviations such as `"Aug"` are not
recognized. -/
theorem c8_month_vocabulary :
    MONTHS.map Prod.fst =
      ["january", "february", "march", "april", "may", "june", "july",
       "august", "september", "october", "november", "december", "spetember"] ∧
    ("spetember", 8) ∈ MONTHS ∧
    parseStartDate "AUGUST 22-23, 2025" = some (2025, 7, 22) ∧
    parseStartDate "Spetember 5-6, 2025" = some (2025, 8, 5) ∧
    parseStartDate "Aug 22-23, 2025" = none := by
  decide

/-! ### Claim C3 -/

/-- Claim C3 (confirmed): every sorted output is pairwise ordered by the
specification's rules — ascending dates when both bindings are dated, dated
before undated, undated pairs in ascending name order — and the spec's
example `[(A, null), (B, 2025-09-01), (C, 2025-08-01)]` comes out
`[C, B, A]`. -/
theorem c3_sorter_order :
    (∀ l : List Binding, (sortBindings l).Pairwise sortSpecRel) ∧
    (sortBindings
        [⟨"A", none⟩, ⟨"B", some (jsDateTime 2025 8 1)⟩,
         ⟨"C", some (jsDateTime 2025 7 1)⟩]).map Binding.name = ["C", "B", "A"] := by
  constructor
  · intro l
    have hs := List.sorted_insertionSort bindLe l
    exact List.Pairwise.imp (fun h => bindLe_imp_spec h) hs
  · decide

/-! ### Claim C4 -/

/-- Claim C4 (confirmed): the resolver's tiers apply in the order exact,
substring, suffix-stripped, first match winning: an exact match is returned
whatever the substring tier would say, and the suffix-stripped tier's
result is the resolver's result exactly when the first two tiers fail. -/
theorem c4_tier_order (folderName : String) (dateMap : DateTable) :
    (∀ v, exactTier dateMap (normalizeTournamentName folderName) = some v →
        findTournamentDate folderName dateMap = some v) ∧
    (exactTier dateMap (normalizeTournamentName folderName) = none →
      ∀ v, substrTier dateMap (normalizeTournamentName folderName) = some v →
        findTournamentDate folderName dateMap = some v) ∧
    (exactTier dateMap (normalizeTournamentName folderName) = none →
      substrTier dateMap (normalizeTournamentName folderName) = none →
      findTournamentDate folderName dateMap =
        suffixTier dateMap (normalizeTournamentName folderName)) := by
  refine ⟨fun v hv => ?_, fun h1 v hv => ?_, fun h1 h2 => ?_⟩
  · unfold findTournamentDate
    rw [hv]
  · unfold findTournamentDate
    rw [h1]
    dsimp only
    rw [hv]
  · unfold findTournamentDate
    rw [h1]
    dsimp only
    rw [h2]

/-- Witness for C4: on `demoTable` the folder `"Blue-Key"` has an exact
match (`rBlueKey`) *and* an earlier substring match (`rBlue`); the resolver
returns the exact one.  On `demoTable2` the first two tiers fail for
`"AlphaClassic"` and the resolver's answer is the suffix tier's. -/
theorem c4_tier_order_witness :
    substrTier demoTable (normalizeTournamentName "Blue-Key") = some rBlue ∧
    findTournamentDate "Blue-Key" demoTable = some rBlueKey ∧
    findTournamentDate "AlphaClassic" demoTable2 =
      suffixTier demoTable2 (normalizeTournamentName "AlphaClassic") ∧
    suffixTier demoTable2 (normalizeTournamentName "AlphaClassic") = some rAlphaInv :=
  ⟨by decide,
   (c4_tier_order "Blue-Key" demoTable).1 rBlueKey (by decide),
   (c4_tier_order "AlphaClassic" demoTable2).2.2 (by decide) (by decide),
   by decide⟩

/-! ### Claim C9 -/

/-- Claim C9 (confirmed): on the empty lookup table every tier comes up
empty, so the resolver returns `null` for every folder name. -/
theorem c9_empty_table (n : String) : findTournamentDate n [] = none := rfl

/-! ### Claim C6 -/

/-- Claim C6 (counterexample): the claim takes the day to be the first 1-2
digit number *immediately following* a run of letters (the day number
directly adjacent to the month word), with `null` when no such day exists.
In `"June -- 5, 2025"` nothing adjacent to the month word is a digit — the
anchored attempt `matchDayAt` (whitespace then one or two digits, which is
exactly the claim's "day directly adjacent to the month word") fails on the
remainder `" -- 5, 2025"` — yet the code scans on, finds the `5` beyond the
dashes, and returns `Date(2025, 5, 5)` instead of `null`. -/
theorem c6_adjacency_counterexample :
    findMonth (cleanDate "June -- 5, 2025") = some ("june", 5, 0) ∧
    matchDayAt ((cleanDate "June -- 5, 2025").drop (0 + "june".data.length)) = none ∧
    parseStartDate "June -- 5, 2025" = some (2025, 5, 5) := by
  decide

/-- Claim C6 (amended): after locating the month token, the day is the
number formed by the first one or two digits at the *earliest digit
occurrence* anywhere in the remainder — regardless of adjacency to the
month word, and truncating a longer digit run to two digits — and the
parse returns `null` exactly when no digit occurs after the month token. -/
theorem c6_day_is_first_digit_after_month (s : String) (name : String) (num idx : Nat)
    (hg : nanGuard s = false)
    (hm : findMonth (cleanDate s) = some (name, num, idx)) :
    (((cleanDate s).drop (idx + name.data.length)).findIdx? Char.isDigit = none →
        parseStartDate s = none) ∧
    ∀ i, ((cleanDate s).drop (idx + name.data.length)).findIdx? Char.isDigit = some i →
        parseStartDate s =
          some ((findYear (cleanDate s)).getD 2025, num,
            twoDigitVal (((cleanDate s).drop (idx + name.data.length)).drop i)) := by
  constructor
  · intro hnone
    unfold parseStartDate
    rw [hg]
    simp only [Bool.false_eq_true, if_false]
    rw [hm]
    dsimp only
    rw [dayScan_eq_findIdx, hnone]
    rfl
  · intro i hi
    unfold parseStartDate
    rw [hg]
    simp only [Bool.false_eq_true, if_false]
    rw [hm]
    dsimp only
    rw [dayScan_eq_findIdx, hi]
    rfl

/-- Witness for the amended C6 at `"August 22-23, 2025"`: the first digit
after the month token is at offset 1 of `" 22-23, 2025"` and the extracted
day is 22, the first day of the range. -/
theorem c6_day_witness :
    parseStartDate "August 22-23, 2025" =
      some ((findYear (cleanDate "August 22-23, 2025")).getD 2025, 7,
        twoDigitVal (((cleanDate "August 22-23, 2025").drop
          (0 + "august".data.length)).drop 1)) ∧
    parseStartDate "August 22-23, 2025" = some (2025, 7, 22) :=
  ⟨(c6_day_is_first_digit_after_month "August 22-23, 2025" "august" 7 0
      (by decide) (by decide)).2 1 (by decide),
   by decide⟩

/-! ### Claim C7 -/

/-- Claim C7 (counterexample): the claim fixes the delimiter from the first
line for the whole table.  On `mixedContent` — a tab-delimited first line
followed by a comma-delimited second line — the claim-side loader
`specFirstLineLoad` discards the second row (tab-splitting leaves a single
column), while the real loader parses it: the two disagree. -/
theorem c7_first_line_delimiter_counterexample :
    loadTournamentDates (some mixedContent) =
      .ok [("alpha", alphaRec), ("beta", betaRec)] ∧
    specFirstLineLoad (some mixedContent) = .ok [("alpha", alphaRec)] ∧
    loadTournamentDates (some mixedContent) ≠ specFirstLineLoad (some mixedContent) := by
  refine ⟨by decide, by decide, by decide⟩

/-- Claim C7 (amended): the loader chooses the delimiter per line — a line
containing a tab is split on tabs, any other line goes through the
quoted-comma parser — as exhibited on content mixing a tab-delimited line,
a plain comma line and a quoted-comma line. -/
theorem c7_per_line_delimiter :
    (∀ line : List Char, line.contains '\t' = true →
        lineColumns line = splitOnChar '\t' line) ∧
    (∀ line : List Char, line.contains '\t' = false →
        lineColumns line = csvSplit line) ∧
    loadTournamentDates (some mixedContent3) =
      .ok [("alpha", alphaRec), ("beta", betaRec), ("gamma", gammaRec)] := by
  refine ⟨fun line h => ?_, fun line h => ?_, by decide⟩
  · unfold lineColumns
    rw [h]
    rfl
  · unfold lineColumns
    rw [h]
    rfl

/-- Witness for the amended C7 on one tab line and one comma line. -/
theorem c7_per_line_delimiter_witness :
    lineColumns "a\tb".data = splitOnChar '\t' "a\tb".data ∧
    lineColumns "a,b".data = csvSplit "a,b".data :=
  ⟨c7_per_line_delimiter.1 "a\tb".data (by decide),
   c7_per_line_delimiter.2.1 "a,b".data (by decide)⟩

/-! ### Claim C10 -/

/-- Claim C10 (counterexample): for the folder `"Tournament"` (normalized
form `"tournament"`, one of the suffixes) with exact and substring tiers
failing on `cexTable`, the resolver does *not* return the first-inserted
record `rZzz`: while iterating the earlier suffix `"invitational"` it
strips the key `"invitationaltour"` to `"tour"`, which `"tournament"`
contains, and returns `rInvTour`. -/
theorem c10_not_first_record_counterexample :
    normalizeTournamentName "Tournament" = "tournament" ∧
    "tournament" ∈ suffixesList ∧
    exactTier cexTable "tournament" = none ∧
    substrTier cexTable "tournament" = none ∧
    cexTable.head? = some ("zzz", rZzz) ∧
    findTournamentDate "Tournament" cexTable = some rInvTour ∧
    rInvTour ≠ rZzz := by
  decide

/-- Claim C10 (amended): for a non-empty table and a folder name whose
normalized form is exactly `"invitational"` — the *first* suffix the third
tier tries — if the exact and substring tiers fail, the resolver returns
the first-inserted record of the table regardless of any name similarity:
stripping the suffix leaves the empty string, and the containment test
accepts the empty string as a substring of every stripped key.  (For the
three later suffixes an earlier suffix iteration can instead return a
different record, as the counterexample shows.) -/
theorem c10_empty_suffix_returns_first (n : String) (k : String × DateRecord)
    (rest : DateTable)
    (hn : normalizeTournamentName n = "invitational")
    (hex : exactTier (k :: rest) "invitational" = none)
    (hsub : substrTier (k :: rest) "invitational" = none) :
    findTournamentDate n (k :: rest) = some k.2 := by
  have hempty : mapGet (k :: rest) "" = none := substrTier_none_no_empty_key hsub
  have hrepl : replaceFirstStr "invitational" "invitational" = "" := by decide
  unfold findTournamentDate
  rw [hn, hex]
  dsimp only
  rw [hsub]
  dsimp only
  unfold suffixTier suffixesList
  simp only [List.findSome?_cons]
  rw [hrepl, hempty]
  dsimp only
  simp [strContains_empty]

/-- Witness for the amended C10: on `wTable` (no record resembles
`"Invitational!"`) the resolver nevertheless returns the first record. -/
theorem c10_empty_suffix_witness :
    normalizeTournamentName "Invitational!" = "invitational" ∧
    exactTier wTable "invitational" = none ∧
    substrTier wTable "invitational" = none ∧
    findTournamentDate "Invitational!" wTable = some wAlpha :=
  ⟨by decide, by decide, by decide,
    c10_empty_suffix_returns_first "Invitational!" ("alpha", wAlpha)
      [("beta", wBeta)] (by decide) (by decide) (by decide)⟩
